import Mathlib

/-!
Shallow embedding of the vmsh attach path: the VirtIO-MMIO block device
(`src/devices/virtio/block/device.rs`), the attach driver (`src/attach.rs`)
and the KVM tracee layer (`src/kvm/mod.rs`).

Machine integers are modelled as `Nat`; the operations under study never
overflow their Rust types on the inputs the theorems quantify over.
External outcomes (kernel syscall results, file opens, endpoint calls)
are passed in as explicit parameters.
-/

deriving instance DecidableEq for Except

namespace Vmsh

/-! ### Feature bit constants

Modelled from the spec: the constants `VIRTIO_F_VERSION_1`,
`VIRTIO_F_IN_ORDER`, `VIRTIO_F_RING_EVENT_IDX` (from
`src/devices/virtio/features.rs`, not present in the source tree) and
`VIRTIO_BLK_F_RO`, `VIRTIO_BLK_F_FLUSH` (from
`src/devices/virtio/block/mod.rs`, not present either) at their
VirtIO 1.x bit positions, which the spec's wire-format section fixes. -/

def VIRTIO_F_VERSION_1 : Nat := 32

def VIRTIO_F_IN_ORDER : Nat := 35

def VIRTIO_F_RING_EVENT_IDX : Nat := 29

def VIRTIO_BLK_F_RO : Nat := 5

def VIRTIO_BLK_F_FLUSH : Nat := 9

/-! ### Block::new feature computation (device.rs lines 74-85) -/

/-- The `device_features` word computed at the top of `Block::new`:
`1 << VERSION_1 | 1 << IN_ORDER | 1 << RING_EVENT_IDX`, or-ed with
`1 << BLK_F_RO` when `args.read_only` and with `1 << BLK_F_FLUSH` when
`args.advertise_flush`. -/
def blockDeviceFeatures (read_only advertise_flush : Bool) : Nat :=
  let base := (1 <<< VIRTIO_F_VERSION_1) ||| (1 <<< VIRTIO_F_IN_ORDER) |||
    (1 <<< VIRTIO_F_RING_EVENT_IDX)
  let withRo := if read_only then base ||| (1 <<< VIRTIO_BLK_F_RO) else base
  if advertise_flush then withRo ||| (1 <<< VIRTIO_BLK_F_FLUSH) else withRo

example : (blockDeviceFeatures false false).testBit 32 = true := by decide

example : (blockDeviceFeatures false false).testBit 5 = false := by decide

example : (blockDeviceFeatures true false).testBit 5 = true := by decide

example : (blockDeviceFeatures true true).testBit 9 = true := by decide

/-! ### Block device state and activation (device.rs lines 144-266)

`VirtioConfig` fields used by `_activate` / `reset`; the queue contents
are irrelevant to these paths and not modelled. -/

structure VirtioConfig where
  device_features : Nat
  driver_features : Nat
  device_status : Nat
  interrupt_status : Nat
  device_activated : Bool
deriving DecidableEq, Repr

structure BlockState where
  virtio_cfg : VirtioConfig
  read_only : Bool
  sub_id : Option Nat
  handler_held : Bool
deriving DecidableEq, Repr

inductive BlockError where
  | AlreadyActivated : BlockError
  | BadFeatures : Nat → BlockError
  | OpenFile : BlockError
  | Backend : BlockError
  | Simple : BlockError
  | Endpoint : BlockError
deriving DecidableEq, Repr

/-- Outcomes of the fallible external steps inside `Block::_activate`:
the backing-file open, the `StdIoBackend` build, the `IoEvent::register`
call and the endpoint `add_subscriber` call (which yields a
`SubscriberId` on success). -/
structure ActivateEnv where
  open_ok : Bool
  backend_ok : Bool
  ioeventfd_ok : Bool
  add_subscriber : Option Nat
deriving DecidableEq, Repr

/-- `Block::_activate` (device.rs lines 144-205): fail with
`AlreadyActivated` when `device_activated` is set; fail with
`BadFeatures` when the driver did not acknowledge `VERSION_1`; then run
the fallible external steps in source order; only after all of them
succeed record the subscriber id and set `device_activated`. -/
def Block.activateImpl (env : ActivateEnv) (b : BlockState) :
    Except BlockError BlockState :=
  if b.virtio_cfg.device_activated then .error .AlreadyActivated
  else if b.virtio_cfg.driver_features &&& (1 <<< VIRTIO_F_VERSION_1) = 0 then
    .error (.BadFeatures b.virtio_cfg.driver_features)
  else if !env.open_ok then .error .OpenFile
  else if !env.backend_ok then .error .Backend
  else if !env.ioeventfd_ok then .error .Simple
  else
    match env.add_subscriber with
    | none => .error .Endpoint
    | some sid =>
        .ok { b with
                sub_id := some sid
                virtio_cfg := { b.virtio_cfg with device_activated := true } }

/-- `Block::activate` (device.rs lines 254-260) only logs on failure and
otherwise returns `_activate`'s result unchanged. -/
def Block.activate (env : ActivateEnv) (b : BlockState) :
    Except BlockError BlockState :=
  Block.activateImpl env b

/-- `Block::_reset` (device.rs lines 206-220): when a subscriber id is
recorded, remove the subscriber through the endpoint (fallible) and keep
the returned handler; otherwise do nothing. -/
def Block.resetImpl (endpoint_ok : Bool) (b : BlockState) :
    Except BlockError BlockState :=
  match b.sub_id with
  | none => .ok b
  | some _ =>
      if endpoint_ok then .ok { b with sub_id := none, handler_held := true }
      else .error .Endpoint

/-- `Block::reset` (device.rs lines 262-266): `set_device_status(0)` (the
`virtio-device` crate's plain setter writes the status byte only), then
`_reset`. -/
def Block.reset (endpoint_ok : Bool) (b : BlockState) :
    Except BlockError BlockState :=
  Block.resetImpl endpoint_ok
    { b with virtio_cfg := { b.virtio_cfg with device_status := 0 } }

/-! ### Attach driver interception loop (attach.rs lines 176-181, 227-276) -/

/-- A registered MMIO range (`blkdev.mmio_cfg.range`): base guest-physical
address and size. -/
structure MmioRange where
  base : Nat
  size : Nat
deriving DecidableEq, Repr

/-- An MMIO exit event as produced by `wait_for_ioctl`: only the faulting
address matters for routing. -/
structure MmioRw where
  addr : Nat
deriving DecidableEq, Repr

/-- `exit_condition` (attach.rs lines 176-181): unconditionally `Ok(false)`;
the body inspecting the selected queue is commented out. -/
def exit_condition (_blkdev : BlockState) : Except String Bool :=
  .ok false

/-- The routing test of `run_kvm_wrapped` (attach.rs lines 257-261):
`from <= addr && addr < from + size + DEVICE_MAX_MEM`. -/
def mmioInRange (space : MmioRange) (maxMem addr : Nat) : Bool :=
  decide (space.base ≤ addr) && decide (addr < space.base + space.size + maxMem)

/-- One exit delivery (attach.rs lines 256-267): an in-range access is
handed to `mmio_mgr.handle_mmio_rw` (fallible), anything else is left
for the hypervisor; the boolean records whether the device handled it. -/
def dispatchMmio (handler : BlockState → MmioRw → Except String BlockState)
    (space : MmioRange) (maxMem : Nat) (d : BlockState) (rw : MmioRw) :
    Except String (BlockState × Bool) :=
  if mmioInRange space maxMem rw.addr then
    (handler d rw).map (fun d2 => (d2, true))
  else
    .ok (d, false)

/-- Result of running the interception loop for a bounded number of
iterations: `completed` means the loop hit its `break` and
`run_kvm_wrapped`'s closure returned `Ok(())`. -/
inductive LoopOutcome where
  | completed : BlockState → LoopOutcome
  | errored : String → BlockState → LoopOutcome
  | fuelOut : BlockState → LoopOutcome
deriving DecidableEq, Repr

/-- The `loop` of `run_kvm_wrapped` (attach.rs lines 245-272), driven by
the finite trace of `wait_for_ioctl` outcomes and bounded by fuel:
propagate a `wait_for_ioctl` error; on `Some(mmio_rw)` dispatch via the
range test and then break when `exit_condition` says so; on `None` just
loop again. -/
def runKvmLoop (handler : BlockState → MmioRw → Except String BlockState)
    (space : MmioRange) (maxMem : Nat) :
    Nat → List (Except String (Option MmioRw)) → BlockState → LoopOutcome
  | 0, _, d => .fuelOut d
  | _ + 1, [], d => .fuelOut d
  | n + 1, e :: rest, d =>
    match e with
    | .error msg => .errored msg d
    | .ok none => runKvmLoop handler space maxMem n rest d
    | .ok (some rw) =>
      match dispatchMmio handler space maxMem d rw with
      | .error msg => .errored msg d
      | .ok (d2, _handled) =>
        match exit_condition d2 with
        | .error msg => .errored msg d2
        | .ok true => .completed d2
        | .ok false => runKvmLoop handler space maxMem n rest d2

/-! ### KVM fd discovery (kvm/mod.rs lines 471-533) -/

/-- One entry of `/proc/<pid>/fd` as surfaced by `handle.fds()`: the
anon-inode file name and the descriptor number. -/
structure FdInfo where
  name : String
  fd_num : Int
deriving DecidableEq, Repr

/-- A VCPU entry (kvm/mod.rs lines 353-356): parsed index plus fd. -/
structure VCPU where
  idx : Nat
  fd_num : Int
deriving DecidableEq, Repr

inductive KvmError where
  | parseFail : String → KvmError
  | dupVcpu : KvmError
  | noVm : KvmError
  | multipleVms : KvmError
  | noVcpus : KvmError
deriving DecidableEq, Repr

/-- The characters following the last `:` of a name — what
`name.rsplitn(2, ':')` yields as `parts[0]`. -/
def afterLastColon (cs : List Char) : List Char :=
  cs.foldl (fun acc c => if c = ':' then [] else acc ++ [c]) []

/-- `str::parse::<usize>` on a digit string: defined on non-empty
all-digit input. -/
def parseUsize (cs : List Char) : Option Nat :=
  if cs ≠ [] ∧ cs.all Char.isDigit then
    some (cs.foldl (fun n c => n * 10 + (c.toNat - 48)) 0)
  else none

def kvmVmName : String := "anon_inode:kvm-vm"

def kvmVcpuTag : String := "anon_inode:kvm-vcpu:"

/-- The classification pass of `find_vm_fd` (kvm/mod.rs lines 480-503):
push `anon_inode:kvm-vm` descriptors onto `vm_fds`, parse the index of
`anon_inode:kvm-vcpu:<n>` descriptors (failing the whole call when the
index does not parse) and push them onto `vcpu_fds`, skip the rest;
both output lists keep the enumeration order. -/
def classifyFds : List FdInfo → Except KvmError (List Int × List VCPU)
  | [] => .ok ([], [])
  | fd :: rest =>
    if fd.name = kvmVmName then
      match classifyFds rest with
      | .error e => .error e
      | .ok (vms, vcpus) => .ok (fd.fd_num :: vms, vcpus)
    else if kvmVcpuTag.data.isPrefixOf fd.name.data then
      match parseUsize (afterLastColon fd.name.data) with
      | none => .error (.parseFail fd.name)
      | some idx =>
        match classifyFds rest with
        | .error e => .error e
        | .ok (vms, vcpus) => .ok (vms, ⟨idx, fd.fd_num⟩ :: vcpus)
    else classifyFds rest

/-- Helper for `dedupByIdx`: `a` is the last element kept; drop the
following elements whose `idx` equals `a.idx`. -/
def dedupByIdxAux (a : VCPU) : List VCPU → List VCPU
  | [] => []
  | b :: rest =>
    if b.idx = a.idx then dedupByIdxAux a rest
    else b :: dedupByIdxAux b rest

/-- `Vec::dedup_by_key(|vcpu| vcpu.idx)`: drop all but the first of each
run of consecutive entries with equal `idx`. -/
def dedupByIdx : List VCPU → List VCPU
  | [] => []
  | a :: rest => a :: dedupByIdxAux a rest

/-- `find_vm_fd` (kvm/mod.rs lines 471-511): classify, then dedup the
VCPU list by index and fail when the dedup removed anything. -/
def find_vm_fd (fds : List FdInfo) : Except KvmError (List Int × List VCPU) :=
  match classifyFds fds with
  | .error e => .error e
  | .ok (vm_fds, vcpu_fds) =>
    let deduped := dedupByIdx vcpu_fds
    if deduped.length ≠ vcpu_fds.length then .error .dupVcpu
    else .ok (vm_fds, deduped)

structure Hypervisor where
  vm_fd : Int
  vcpus : List VCPU
deriving DecidableEq, Repr

/-- `get_hypervisor` (kvm/mod.rs lines 513-533): reject zero VM fds,
more than one VM fd, and an empty VCPU list; otherwise build the handle
from the single VM fd and the VCPU list. -/
def get_hypervisor (fds : List FdInfo) : Except KvmError Hypervisor :=
  match find_vm_fd fds with
  | .error e => .error e
  | .ok (vm_fds, vcpus) =>
    match vm_fds with
    | [] => .error .noVm
    | [vmfd] => if vcpus.isEmpty then .error .noVcpus else .ok ⟨vmfd, vcpus⟩
    | _ :: _ :: _ => .error .multipleVms

/-- Number of `anon_inode:kvm-vm` descriptors in the fd table. -/
def countVmFds (fds : List FdInfo) : Nat :=
  (fds.filter (fun fd => fd.name = kvmVmName)).length

/-- Number of `anon_inode:kvm-vcpu:<...>` descriptors in the fd table. -/
def countVcpuFds (fds : List FdInfo) : Nat :=
  (fds.filter (fun fd => kvmVcpuTag.data.isPrefixOf fd.name.data)).length

/-! ### Tracee (kvm/mod.rs lines 29-39, 96-174, 264-267) -/

/-- The injectee session held while the target is stopped
(`inject_syscall::Process`); its internals are irrelevant here. -/
structure Injectee where
  token : Nat
deriving DecidableEq, Repr

structure Tracee where
  pid : Nat
  vm_fd : Int
  proc : Option Injectee
deriving DecidableEq, Repr

inductive TraceeError where
  | notAttached : TraceeError
  | attachFailed : TraceeError
  | copySyscall : TraceeError
  | shortCopy : Nat → Nat → TraceeError
  | allocTooSmall : Nat → Nat → TraceeError
deriving DecidableEq, Repr

/-- `Tracee::attach` (kvm/mod.rs lines 99-107): when no injectee session
is held, run `inject_syscall::attach` (whose outcome is the `env`
parameter) and store the session; when one is already held, do nothing
and succeed. -/
def Tracee.attach (env : Option Injectee) (t : Tracee) :
    Except TraceeError Tracee :=
  match t.proc with
  | some _ => .ok t
  | none =>
    match env with
    | some p => .ok { t with proc := some p }
    | none => .error .attachFailed

/-- `Tracee::detach` (kvm/mod.rs lines 109-111): drop the session. -/
def Tracee.detach (t : Tracee) : Tracee :=
  { t with proc := none }

/-- `Tracee::try_get_proc` (kvm/mod.rs lines 113-118). -/
def Tracee.try_get_proc (t : Tracee) : Except TraceeError Injectee :=
  match t.proc with
  | none => .error .notAttached
  | some p => .ok p

/-- `process_read`/`process_write` (kvm/mod.rs lines 42-94): one call to
the kernel's vectored copy primitive, whose outcome is `copied` (`none`
= syscall error, `some f` = bytes moved); when `f` differs from the
requested length the function bails immediately. -/
def processCopy (len : Nat) (copied : Option Nat) : Except TraceeError Unit :=
  match copied with
  | none => .error .copySyscall
  | some f => if f ≠ len then .error (.shortCopy f len) else .ok ()

/-- `Tracee::vm_ioctl` (kvm/mod.rs lines 120-123): require the session,
then issue the ioctl in the target (result abstracted as `ret`). -/
def Tracee.vm_ioctl (ret : Int) (t : Tracee) : Except TraceeError Int :=
  match t.try_get_proc with
  | .error e => .error e
  | .ok _ => .ok ret

/-- `Tracee::vcpu_ioctl` (kvm/mod.rs lines 156-159): same shape as
`vm_ioctl` but against a VCPU fd. -/
def Tracee.vcpu_ioctl (ret : Int) (t : Tracee) : Except TraceeError Int :=
  match t.try_get_proc with
  | .error e => .error e
  | .ok _ => .ok ret

/-- `Tracee::vm_ioctl_with_ref` (kvm/mod.rs lines 139-154): first
`process_read` the argument memory (a debug print of the
`kvm_ioeventfd` view), then `vm_ioctl`. -/
def Tracee.vm_ioctl_with_ref (len : Nat) (copied : Option Nat) (ret : Int)
    (t : Tracee) : Except TraceeError Int :=
  match processCopy len copied with
  | .error e => .error e
  | .ok _ => t.vm_ioctl ret

/-- `Tracee::mmap` (kvm/mod.rs lines 166-174): require the session, then
run the remote anonymous mmap (resulting address abstracted). -/
def Tracee.mmap (addr : Nat) (t : Tracee) : Except TraceeError Nat :=
  match t.try_get_proc with
  | .error e => .error e
  | .ok _ => .ok addr

/-- `Tracee::munmap` (kvm/mod.rs lines 264-267): require the session,
then run the remote munmap. -/
def Tracee.munmap (t : Tracee) : Except TraceeError Unit :=
  match t.try_get_proc with
  | .error e => .error e
  | .ok _ => .ok ()

/-! ### HvMem and memslot registration (kvm/mod.rs lines 287-316, 294-307,
414-468) -/

/-- `HvMem<T>` stores the remote pointer, the pid, the tracee handle and
a `PhantomData<T>`; `sizeofT` stands for the statically known
`size_of::<T>()` carried by the phantom type.  The padded allocation
length is *not* a field — the Rust struct does not record it. -/
structure HvMem where
  ptr : Nat
  sizeofT : Nat
deriving DecidableEq, Repr

/-- Result of `alloc_mem_padded`: the `HvMem` plus the length that was
passed to the remote `mmap` (recorded here for specification purposes
only; the Rust value forgets it). -/
structure AllocResult where
  mem : HvMem
  allocated : Nat
deriving DecidableEq, Repr

/-- `Hypervisor::alloc_mem_padded` (kvm/mod.rs lines 448-468): bail when
`size < size_of::<T>()`, otherwise remote-`mmap` exactly `size` bytes.
`addr` is the address the kernel picks for the mapping. -/
def alloc_mem_padded (sizeofT size : Nat) (addr : Nat) (t : Tracee) :
    Except TraceeError AllocResult :=
  if size < sizeofT then .error (.allocTooSmall size sizeofT)
  else
    match t.mmap addr with
    | .error e => .error e
    | .ok p => .ok ⟨⟨p, sizeofT⟩, size⟩

/-- `Hypervisor::alloc_mem` (kvm/mod.rs lines 443-445):
`alloc_mem_padded::<T>(size_of::<T>())`. -/
def alloc_mem (sizeofT : Nat) (addr : Nat) (t : Tracee) :
    Except TraceeError AllocResult :=
  alloc_mem_padded sizeofT sizeofT addr t

/-- The munmap calls issued by `HvMem::drop` (kvm/mod.rs lines 294-307):
none when the tracee lock cannot be taken, otherwise exactly one call
`munmap(self.ptr, size_of::<T>())`. -/
def HvMem.dropMunmapCalls (lock_ok : Bool) (m : HvMem) : List (Nat × Nat) :=
  if lock_ok then [(m.ptr, m.sizeofT)] else []

/-- Bytes covered by an `mmap`/`munmap` of `len` bytes at a page-aligned
address: the kernel rounds the length up to whole pages. -/
def pageCeil (ps len : Nat) : Nat :=
  ((len + ps - 1) / ps) * ps

structure KvmUserspaceMemoryRegion where
  slot : Nat
  flags : Nat
  guest_phys_addr : Nat
  memory_size : Nat
  userspace_addr : Nat
deriving DecidableEq, Repr

/-- The slot length chosen by `Hypervisor::vm_add_mem` (kvm/mod.rs line
420): `(size_of::<T>() / page_size() + 1) * page_size()`. -/
def vm_add_mem_slot_len (sizeofT ps : Nat) : Nat :=
  (sizeofT / ps + 1) * ps

/-- The `kvm_userspace_memory_region` filled in by
`Hypervisor::vm_add_mem` (kvm/mod.rs lines 422-428): slot id is
`get_maps()?.len()` (`nMaps`), flags `0`, guest-physical base
`0xd0000000`, size `slot_len`, and the freshly mmapped host address. -/
def vm_add_mem_region (sizeofT ps nMaps ptr : Nat) : KvmUserspaceMemoryRegion :=
  { slot := nMaps
    flags := 0
    guest_phys_addr := 0xd0000000
    memory_size := vm_add_mem_slot_len sizeofT ps
    userspace_addr := ptr }

/-! ## Claims -/

/-- C2: for every constructed Block device the advertised feature word
contains `VERSION_1`, `IN_ORDER` and `RING_EVENT_IDX`; it contains
`BLK_F_RO` iff the device is read-only and `BLK_F_FLUSH` iff flush was
requested at construction. -/
theorem blockDeviceFeatures_bits (read_only advertise_flush : Bool) :
    (blockDeviceFeatures read_only advertise_flush).testBit VIRTIO_F_VERSION_1 = true ∧
    (blockDeviceFeatures read_only advertise_flush).testBit VIRTIO_F_IN_ORDER = true ∧
    (blockDeviceFeatures read_only advertise_flush).testBit VIRTIO_F_RING_EVENT_IDX = true ∧
    (blockDeviceFeatures read_only advertise_flush).testBit VIRTIO_BLK_F_RO = read_only ∧
    (blockDeviceFeatures read_only advertise_flush).testBit VIRTIO_BLK_F_FLUSH = advertise_flush := by
  cases read_only <;> cases advertise_flush <;> exact ⟨by decide, by decide, by decide, by decide, by decide⟩

/-- C1: `Block::activate` fails with `AlreadyActivated` on an activated
device and with `BadFeatures` when the driver did not acknowledge
`VERSION_1`; it sets `device_activated` only on success, and while the
flag is set every further activation fails. -/
theorem block_activation_one_shot (env : ActivateEnv) (b : BlockState) :
    (b.virtio_cfg.device_activated = true →
      Block.activate env b = .error .AlreadyActivated) ∧
    (b.virtio_cfg.device_activated = false →
      b.virtio_cfg.driver_features &&& (1 <<< VIRTIO_F_VERSION_1) = 0 →
      Block.activate env b = .error (.BadFeatures b.virtio_cfg.driver_features)) ∧
    (∀ b2, Block.activate env b = .ok b2 →
      b.virtio_cfg.device_activated = false ∧
      b.virtio_cfg.driver_features &&& (1 <<< VIRTIO_F_VERSION_1) ≠ 0 ∧
      b2.virtio_cfg.device_activated = true ∧
      ∀ env2, Block.activate env2 b2 = .error .AlreadyActivated) := by
  refine ⟨?_, ?_, ?_⟩
  · intro h
    simp [Block.activate, Block.activateImpl, h]
  · intro h1 h2
    simp [Block.activate, Block.activateImpl, h1, h2]
  · intro b2 hok
    by_cases hact : b.virtio_cfg.device_activated = true
    · simp [Block.activate, Block.activateImpl, hact] at hok
    · by_cases hfeat : b.virtio_cfg.driver_features &&& (1 <<< VIRTIO_F_VERSION_1) = 0
      · simp [Block.activate, Block.activateImpl, hact, hfeat] at hok
      · simp only [Block.activate, Block.activateImpl, if_neg hact, if_neg hfeat] at hok
        by_cases ho : env.open_ok = true
        · by_cases hb : env.backend_ok = true
          · by_cases hi : env.ioeventfd_ok = true
            · cases hsub : env.add_subscriber with
              | none => simp [ho, hb, hi, hsub] at hok
              | some sid =>
                simp only [ho, hb, hi, hsub, Bool.not_true, Bool.false_eq_true,
                  if_false, Except.ok.injEq] at hok
                subst hok
                refine ⟨by simpa using hact, hfeat, by simp, ?_⟩
                intro env2
                simp [Block.activate, Block.activateImpl]
            · simp [ho, hb, hi] at hok
          · simp [ho, hb] at hok
        · simp [ho] at hok

/-- C1 witness: on a device already activated (resp. one whose driver
features miss `VERSION_1`) activation fails as stated. -/
theorem block_activation_one_shot_witness :
    Block.activate ⟨true, true, true, some 7⟩
      ⟨⟨0, 0, 15, 0, true⟩, false, none, false⟩ = .error .AlreadyActivated ∧
    Block.activate ⟨true, true, true, some 7⟩
      ⟨⟨0, 0, 15, 0, false⟩, false, none, false⟩ = .error (.BadFeatures 0) :=
  ⟨(block_activation_one_shot ⟨true, true, true, some 7⟩
      ⟨⟨0, 0, 15, 0, true⟩, false, none, false⟩).1 rfl,
   (block_activation_one_shot ⟨true, true, true, some 7⟩
      ⟨⟨0, 0, 15, 0, false⟩, false, none, false⟩).2.1 rfl (by decide)⟩

/-- C4: an MMIO exit is delivered to the block device iff its address
lies in `[base, base + size + DEVICE_MAX_MEM)`; an exit outside that
range leaves the device untouched and is passed through. -/
theorem dispatchMmio_range (handler : BlockState → MmioRw → Except String BlockState)
    (space : MmioRange) (maxMem : Nat) (d : BlockState) (rw : MmioRw) :
    (mmioInRange space maxMem rw.addr = true ↔
      space.base ≤ rw.addr ∧ rw.addr < space.base + space.size + maxMem) ∧
    (mmioInRange space maxMem rw.addr = true →
      dispatchMmio handler space maxMem d rw = (handler d rw).map (fun d2 => (d2, true))) ∧
    (mmioInRange space maxMem rw.addr = false →
      dispatchMmio handler space maxMem d rw = .ok (d, false)) := by
  refine ⟨by simp [mmioInRange], ?_, ?_⟩
  · intro h
    simp [dispatchMmio, h]
  · intro h
    simp [dispatchMmio, h]

/-- C4 witness: a concrete in-range exit is handled and a concrete
out-of-range exit is passed through with the device unchanged. -/
theorem dispatchMmio_range_witness :
    dispatchMmio (fun d _ => .ok d) ⟨4096, 512⟩ 4096 ⟨⟨0, 0, 0, 0, false⟩, false, none, false⟩ ⟨4100⟩ =
      .ok (⟨⟨0, 0, 0, 0, false⟩, false, none, false⟩, true) ∧
    dispatchMmio (fun d _ => .ok d) ⟨4096, 512⟩ 4096 ⟨⟨0, 0, 0, 0, false⟩, false, none, false⟩ ⟨100⟩ =
      .ok (⟨⟨0, 0, 0, 0, false⟩, false, none, false⟩, false) :=
  ⟨(dispatchMmio_range (fun d _ => .ok d) ⟨4096, 512⟩ 4096
      ⟨⟨0, 0, 0, 0, false⟩, false, none, false⟩ ⟨4100⟩).2.1 (by decide),
   (dispatchMmio_range (fun d _ => .ok d) ⟨4096, 512⟩ 4096
      ⟨⟨0, 0, 0, 0, false⟩, false, none, false⟩ ⟨100⟩).2.2 (by decide)⟩

/-- C7: `Tracee::attach` on an attached tracee succeeds without changing
the state, `Tracee::detach` on a detached tracee is the identity, and
`detach` is idempotent. -/
theorem tracee_attach_detach_idempotent (env : Option Injectee) (t : Tracee) :
    (∀ p, t.proc = some p → Tracee.attach env t = .ok t) ∧
    (t.proc = none → Tracee.detach t = t) ∧
    Tracee.detach (Tracee.detach t) = Tracee.detach t := by
  obtain ⟨pid, vm_fd, proc⟩ := t
  refine ⟨?_, ?_, by simp [Tracee.detach]⟩
  · intro p hp
    simp only at hp
    simp [Tracee.attach, hp]
  · intro hp
    simp only at hp
    simp [Tracee.detach, hp]

/-- C7 witness: concrete attached and detached tracees. -/
theorem tracee_attach_detach_idempotent_witness :
    Tracee.attach none ⟨100, 3, some ⟨0⟩⟩ = .ok ⟨100, 3, some ⟨0⟩⟩ ∧
    Tracee.detach ⟨100, 3, none⟩ = ⟨100, 3, none⟩ :=
  ⟨(tracee_attach_detach_idempotent none ⟨100, 3, some ⟨0⟩⟩).1 ⟨0⟩ rfl,
   (tracee_attach_detach_idempotent none ⟨100, 3, none⟩).2.1 rfl⟩

/-- C10: every `vm_add_mem` memslot uses guest-physical base
`0xd0000000`, flags `0`, slot id `get_maps().len()`, and a memory size
that is the least page multiple strictly greater than `sizeof(T)`;
hence any two such regions both contain address `0xd0000000` and
overlap. -/
theorem vm_add_mem_region_layout (sizeofT ps nMaps ptr sizeofT2 nMaps2 ptr2 : Nat)
    (hps : 0 < ps) :
    (vm_add_mem_region sizeofT ps nMaps ptr).guest_phys_addr = 0xd0000000 ∧
    (vm_add_mem_region sizeofT ps nMaps ptr).flags = 0 ∧
    (vm_add_mem_region sizeofT ps nMaps ptr).slot = nMaps ∧
    sizeofT < (vm_add_mem_region sizeofT ps nMaps ptr).memory_size ∧
    ps ∣ (vm_add_mem_region sizeofT ps nMaps ptr).memory_size ∧
    (∀ m, ps ∣ m → sizeofT < m →
      (vm_add_mem_region sizeofT ps nMaps ptr).memory_size ≤ m) ∧
    ((vm_add_mem_region sizeofT ps nMaps ptr).guest_phys_addr ≤ 0xd0000000 ∧
      0xd0000000 < (vm_add_mem_region sizeofT ps nMaps ptr).guest_phys_addr +
        (vm_add_mem_region sizeofT ps nMaps ptr).memory_size) ∧
    ((vm_add_mem_region sizeofT2 ps nMaps2 ptr2).guest_phys_addr ≤ 0xd0000000 ∧
      0xd0000000 < (vm_add_mem_region sizeofT2 ps nMaps2 ptr2).guest_phys_addr +
        (vm_add_mem_region sizeofT2 ps nMaps2 ptr2).memory_size) := by
  have hlt : ∀ s : Nat, s < vm_add_mem_slot_len s ps := by
    intro s
    exact (Nat.div_lt_iff_lt_mul hps).mp (Nat.lt_succ_self _)
  have hdvd : ∀ s : Nat, ps ∣ vm_add_mem_slot_len s ps :=
    fun s => ⟨s / ps + 1, Nat.mul_comm _ _⟩
  have hpos : ∀ s : Nat, 0 < vm_add_mem_slot_len s ps :=
    fun s => Nat.mul_pos (Nat.succ_pos _) hps
  refine ⟨rfl, rfl, rfl, hlt sizeofT, hdvd sizeofT, ?_, ?_, ?_⟩
  · intro m hm hsm
    obtain ⟨k, rfl⟩ := hm
    have h1 : sizeofT / ps < ps * k / ps :=
      Nat.div_lt_div_of_lt_of_dvd ⟨k, rfl⟩ hsm
    rw [Nat.mul_div_cancel_left k hps] at h1
    calc vm_add_mem_slot_len sizeofT ps = (sizeofT / ps + 1) * ps := rfl
      _ ≤ k * ps := Nat.mul_le_mul_right ps h1
      _ = ps * k := Nat.mul_comm _ _
  · exact ⟨Nat.le_refl _, Nat.lt_add_of_pos_right (hpos sizeofT)⟩
  · exact ⟨Nat.le_refl _, Nat.lt_add_of_pos_right (hpos sizeofT2)⟩

/-- C10 witness: with 4096-byte pages and a 4096-byte payload the region
sits at `0xd0000000` in slot 5 with the least strictly-larger page
multiple, 8192 bytes. -/
theorem vm_add_mem_region_layout_witness :
    (vm_add_mem_region 4096 4096 5 777).memory_size ≤ 8192 ∧
    (vm_add_mem_region 4096 4096 5 777).slot = 5 ∧
    (vm_add_mem_region 4096 4096 5 777).guest_phys_addr = 0xd0000000 :=
  ⟨(vm_add_mem_region_layout 4096 4096 5 777 100 6 888 (by decide)).2.2.2.2.2.1
      8192 (by decide) (by decide),
   (vm_add_mem_region_layout 4096 4096 5 777 100 6 888 (by decide)).2.2.1,
   (vm_add_mem_region_layout 4096 4096 5 777 100 6 888 (by decide)).1⟩

/-- C9: evaluation of the code at the failing input.  A successful
padded allocation of 8192 bytes for a 4096-byte type does allocate
`max(sizeof(T), pad) = 8192` bytes, and `HvMem::drop` issues exactly
one `munmap` — but of `size_of::<T>() = 4096` bytes (one page), leaving
4096 of the 8192 allocated bytes mapped: the allocated region is not
unmapped at drop. -/
theorem hvmem_drop_unmaps_less_than_allocated :
    alloc_mem_padded 4096 8192 8323072 ⟨100, 3, some ⟨0⟩⟩ =
      .ok ⟨⟨8323072, 4096⟩, 8192⟩ ∧
    (8192 : Nat) = max 4096 8192 ∧
    HvMem.dropMunmapCalls true ⟨8323072, 4096⟩ = [(8323072, 4096)] ∧
    (HvMem.dropMunmapCalls true ⟨8323072, 4096⟩).length = 1 ∧
    pageCeil 4096 4096 < 8192 :=
  ⟨rfl, rfl, rfl, rfl, by decide⟩

/-- C8 counterexample: on a detached tracee, `vm_ioctl_with_ref` whose
preliminary `process_read` short-copies returns the short-copy error,
not `NotAttached`. -/
theorem vm_ioctl_with_ref_detached_not_notAttached :
    Tracee.vm_ioctl_with_ref 64 (some 0) 0 ⟨100, 3, none⟩ =
      .error (.shortCopy 0 64) ∧
    TraceeError.shortCopy 0 64 ≠ TraceeError.notAttached :=
  ⟨rfl, by decide⟩

/-- C8 (amended): on a detached tracee `vm_ioctl`, `vcpu_ioctl`, `mmap`
and `munmap` fail with `NotAttached`; `vm_ioctl_with_ref` always fails,
and fails with `NotAttached` exactly when its preliminary cross-process
read copies the full length; a cross-process copy that moves fewer
bytes than requested is an immediate error. -/
theorem tracee_remote_ops_not_attached (t : Tracee) (h : t.proc = none)
    (ret : Int) (addr len f : Nat) (copied : Option Nat) :
    Tracee.vm_ioctl ret t = .error .notAttached ∧
    Tracee.vcpu_ioctl ret t = .error .notAttached ∧
    Tracee.mmap addr t = .error .notAttached ∧
    Tracee.munmap t = .error .notAttached ∧
    (copied = some len → Tracee.vm_ioctl_with_ref len copied ret t = .error .notAttached) ∧
    (∃ e, Tracee.vm_ioctl_with_ref len copied ret t = .error e) ∧
    (f < len → processCopy len (some f) = .error (.shortCopy f len)) := by
  have hget : Tracee.try_get_proc t = .error .notAttached := by
    simp [Tracee.try_get_proc, h]
  refine ⟨by simp [Tracee.vm_ioctl, hget], by simp [Tracee.vcpu_ioctl, hget],
    by simp [Tracee.mmap, hget], by simp [Tracee.munmap, hget], ?_, ?_, ?_⟩
  · intro hc
    simp [Tracee.vm_ioctl_with_ref, processCopy, hc, Tracee.vm_ioctl, hget]
  · cases copied with
    | none => exact ⟨.copySyscall, by simp [Tracee.vm_ioctl_with_ref, processCopy]⟩
    | some g =>
      by_cases hg : g = len
      · exact ⟨.notAttached,
          by simp [Tracee.vm_ioctl_with_ref, processCopy, hg, Tracee.vm_ioctl, hget]⟩
      · exact ⟨.shortCopy g len,
          by simp [Tracee.vm_ioctl_with_ref, processCopy, hg]⟩
  · intro hf
    simp [processCopy, Nat.ne_of_lt hf]

/-- C8 witness: concrete detached tracee. -/
theorem tracee_remote_ops_not_attached_witness :
    Tracee.vm_ioctl 0 ⟨100, 3, none⟩ = .error .notAttached ∧
    Tracee.vm_ioctl_with_ref 64 (some 64) 0 ⟨100, 3, none⟩ = .error .notAttached ∧
    processCopy 64 (some 13) = .error (.shortCopy 13 64) :=
  ⟨(tracee_remote_ops_not_attached ⟨100, 3, none⟩ rfl 0 0 64 13 (some 64)).1,
   (tracee_remote_ops_not_attached ⟨100, 3, none⟩ rfl 0 0 64 13 (some 64)).2.2.2.2.1 rfl,
   (tracee_remote_ops_not_attached ⟨100, 3, none⟩ rfl 0 0 64 13 (some 64)).2.2.2.2.2.2
     (by decide)⟩

/-- Helper: the interception loop can only stop by error or by running
out of fuel — it never reaches the `break`, whatever the device state or
the exit trace, because `exit_condition` is constantly `Ok(false)`. -/
theorem runKvmLoop_no_completion
    (handler : BlockState → MmioRw → Except String BlockState)
    (space : MmioRange) (maxMem : Nat) :
    ∀ (fuel : Nat) (trace : List (Except String (Option MmioRw))) (d d2 : BlockState),
      runKvmLoop handler space maxMem fuel trace d ≠ .completed d2 := by
  intro fuel
  induction fuel with
  | zero =>
    intro trace d d2
    simp [runKvmLoop]
  | succ n ih =>
    intro trace d d2
    cases trace with
    | nil => simp [runKvmLoop]
    | cons e rest =>
      cases e with
      | error msg => simp [runKvmLoop]
      | ok oe =>
        cases oe with
        | none => simpa [runKvmLoop] using ih rest d d2
        | some rw =>
          simp only [runKvmLoop]
          cases hd : dispatchMmio handler space maxMem d rw with
          | error msg => simp
          | ok pr =>
            obtain ⟨d3, hb⟩ := pr
            simpa [exit_condition] using ih rest d3 d2

/-- C3: `run_kvm_wrapped`'s MMIO-servicing loop never terminates by its
`break` — `exit_condition` returns `Ok(false)` for every device state
(`device_activated = true` included), so the loop never observes
`DRIVER_OK`/activation and the closure never returns success. -/
theorem run_kvm_wrapped_loop_never_breaks
    (handler : BlockState → MmioRw → Except String BlockState)
    (space : MmioRange) (maxMem fuel : Nat)
    (trace : List (Except String (Option MmioRw))) (d : BlockState) :
    exit_condition d = .ok false ∧
    ∀ d2, runKvmLoop handler space maxMem fuel trace d ≠ .completed d2 :=
  ⟨rfl, fun d2 => runKvmLoop_no_completion handler space maxMem fuel trace d d2⟩

/-- Helper: dedup never lengthens the list. -/
theorem dedupByIdxAux_length_le :
    ∀ (l : List VCPU) (a : VCPU), (dedupByIdxAux a l).length ≤ l.length := by
  intro l
  induction l with
  | nil =>
    intro a
    simp [dedupByIdxAux]
  | cons b rest ih =>
    intro a
    simp only [dedupByIdxAux]
    by_cases hb : b.idx = a.idx
    · rw [if_pos hb]
      exact Nat.le_succ_of_le (ih a)
    · rw [if_neg hb]
      simpa using Nat.succ_le_succ (ih b)

/-- Helper: when consecutive indices all differ, dedup keeps the list. -/
theorem dedupByIdxAux_eq_of_chain :
    ∀ (l : List VCPU) (a : VCPU),
      List.Chain' (fun x y => x.idx ≠ y.idx) (a :: l) → dedupByIdxAux a l = l := by
  intro l
  induction l with
  | nil =>
    intro a _
    rfl
  | cons b rest ih =>
    intro a h
    rw [List.chain'_cons] at h
    obtain ⟨hab, hrest⟩ := h
    simp only [dedupByIdxAux]
    rw [if_neg fun he => hab he.symm]
    rw [ih b hrest]

/-- Helper: a length-preserving dedup forces pairwise-distinct
consecutive indices. -/
theorem chain_of_dedupByIdxAux_len :
    ∀ (l : List VCPU) (a : VCPU),
      (dedupByIdxAux a l).length = l.length →
      List.Chain' (fun x y => x.idx ≠ y.idx) (a :: l) := by
  intro l
  induction l with
  | nil =>
    intro a _
    simp
  | cons b rest ih =>
    intro a h
    simp only [dedupByIdxAux] at h
    by_cases hb : b.idx = a.idx
    · rw [if_pos hb, List.length_cons] at h
      have hle := dedupByIdxAux_length_le rest a
      exact absurd h (Nat.ne_of_lt (Nat.lt_succ_of_le hle))
    · rw [if_neg hb, List.length_cons, List.length_cons] at h
      rw [List.chain'_cons]
      exact ⟨fun he => hb he.symm, ih b (Nat.succ_injective h)⟩

/-- Helper: `find_vm_fd` succeeds exactly on classification outputs
whose consecutive VCPU indices differ, and then returns the classified
lists unchanged (in particular in fd-enumeration order). -/
theorem find_vm_fd_ok_iff (fds : List FdInfo) (vms : List Int) (vcpus : List VCPU) :
    find_vm_fd fds = .ok (vms, vcpus) ↔
      classifyFds fds = .ok (vms, vcpus) ∧
      List.Chain' (fun a b => a.idx ≠ b.idx) vcpus := by
  cases hc : classifyFds fds with
  | error e =>
    simp only [find_vm_fd, hc]
    constructor
    · intro h
      exact Except.noConfusion h
    · intro h
      exact Except.noConfusion h.1
  | ok pr =>
    obtain ⟨vms0, vcpus0⟩ := pr
    simp only [find_vm_fd, hc]
    by_cases hlen : (dedupByIdx vcpus0).length = vcpus0.length
    · have hchain0 : List.Chain' (fun a b => a.idx ≠ b.idx) vcpus0 := by
        cases vcpus0 with
        | nil => simp
        | cons a rest =>
          simp only [dedupByIdx, List.length_cons] at hlen
          exact chain_of_dedupByIdxAux_len rest a (Nat.succ_injective hlen)
      have hded : dedupByIdx vcpus0 = vcpus0 := by
        cases vcpus0 with
        | nil => rfl
        | cons a rest =>
          simp only [dedupByIdx]
          rw [dedupByIdxAux_eq_of_chain rest a hchain0]
      rw [if_neg (not_not_intro hlen), hded]
      constructor
      · intro h
        simp only [Except.ok.injEq, Prod.mk.injEq] at h
        obtain ⟨h1, h2⟩ := h
        subst h1
        subst h2
        exact ⟨rfl, hchain0⟩
      · intro hpair
        simp only [Except.ok.injEq, Prod.mk.injEq] at hpair
        obtain ⟨⟨h1, h2⟩, _⟩ := hpair
        subst h1
        subst h2
        rfl
    · rw [if_pos hlen]
      constructor
      · intro h
        exact Except.noConfusion h
      · intro hpair
        simp only [Except.ok.injEq, Prod.mk.injEq] at hpair
        obtain ⟨⟨h1, h2⟩, hchain⟩ := hpair
        subst h2
        exfalso
        apply hlen
        cases vcpus0 with
        | nil => rfl
        | cons a rest =>
          simp only [dedupByIdx, List.length_cons]
          rw [dedupByIdxAux_eq_of_chain rest a hchain]

/-- Helper: an adjacent duplicate index makes `find_vm_fd` fail with the
multiple-VM error. -/
theorem find_vm_fd_dup_error (fds : List FdInfo) (vms : List Int) (vcpus : List VCPU)
    (hc : classifyFds fds = .ok (vms, vcpus))
    (hch : ¬ List.Chain' (fun a b => a.idx ≠ b.idx) vcpus) :
    find_vm_fd fds = .error .dupVcpu := by
  have hne : ¬ (dedupByIdx vcpus).length = vcpus.length := by
    intro hlen
    apply hch
    cases vcpus with
    | nil => simp
    | cons a rest =>
      simp only [dedupByIdx, List.length_cons] at hlen
      exact chain_of_dedupByIdxAux_len rest a (Nat.succ_injective hlen)
  simp only [find_vm_fd, hc]
  rw [if_pos hne]

/-- Helper: a successful classification returns one VM fd per
`anon_inode:kvm-vm` entry and one VCPU entry per
`anon_inode:kvm-vcpu:<n>` entry. -/
theorem classifyFds_counts :
    ∀ (fds : List FdInfo) (vms : List Int) (vcpus : List VCPU),
      classifyFds fds = .ok (vms, vcpus) →
      vms.length = countVmFds fds ∧ vcpus.length = countVcpuFds fds := by
  intro fds
  induction fds with
  | nil =>
    intro vms vcpus h
    simp only [classifyFds, Except.ok.injEq, Prod.mk.injEq] at h
    obtain ⟨h1, h2⟩ := h
    subst h1
    subst h2
    simp [countVmFds, countVcpuFds]
  | cons fd rest ih =>
    intro vms vcpus h
    by_cases hvm : fd.name = kvmVmName
    · have hnp : kvmVcpuTag.data.isPrefixOf fd.name.data = false := by
        rw [hvm]
        decide
      simp only [classifyFds, if_pos hvm] at h
      cases hc : classifyFds rest with
      | error e =>
        rw [hc] at h
        exact Except.noConfusion h
      | ok pr =>
        obtain ⟨vms0, vcpus0⟩ := pr
        rw [hc] at h
        simp only [Except.ok.injEq, Prod.mk.injEq] at h
        obtain ⟨h1, h2⟩ := h
        subst h1
        subst h2
        obtain ⟨ih1, ih2⟩ := ih vms0 vcpus0 hc
        constructor
        · simp [countVmFds, List.filter_cons, hvm, ← ih1, countVmFds] at ih1 ⊢
          omega
        · simp [countVcpuFds, List.filter_cons, hnp] at ih2 ⊢
          omega
    · by_cases hpre : kvmVcpuTag.data.isPrefixOf fd.name.data = true
      · simp only [classifyFds, if_neg hvm, hpre, if_pos] at h
        cases hp : parseUsize (afterLastColon fd.name.data) with
        | none =>
          rw [hp] at h
          exact Except.noConfusion h
        | some idx =>
          rw [hp] at h
          cases hc : classifyFds rest with
          | error e =>
            rw [hc] at h
            exact Except.noConfusion h
          | ok pr =>
            obtain ⟨vms0, vcpus0⟩ := pr
            rw [hc] at h
            simp only [Except.ok.injEq, Prod.mk.injEq] at h
            obtain ⟨h1, h2⟩ := h
            subst h1
            subst h2
            obtain ⟨ih1, ih2⟩ := ih vms0 vcpus0 hc
            constructor
            · simp [countVmFds, List.filter_cons, hvm] at ih1 ⊢
              omega
            · simp [countVcpuFds, List.filter_cons, hpre] at ih2 ⊢
              omega
      · simp only [classifyFds, if_neg hvm, if_neg hpre] at h
        obtain ⟨ih1, ih2⟩ := ih vms vcpus h
        constructor
        · simp [countVmFds, List.filter_cons, hvm] at ih1 ⊢
          omega
        · simp only [Bool.not_eq_true] at hpre
          simp [countVcpuFds, List.filter_cons, hpre] at ih2 ⊢
          omega

/-- C5: `get_hypervisor` yields a handle only when the fd table holds
exactly one `anon_inode:kvm-vm` descriptor and at least one
`anon_inode:kvm-vcpu:<n>` descriptor, and it returns an error whenever
there are zero VM fds, more than one VM fd, or zero VCPU fds. -/
theorem get_hypervisor_one_vm (fds : List FdInfo) :
    (∀ hv, get_hypervisor fds = .ok hv →
      countVmFds fds = 1 ∧ 1 ≤ countVcpuFds fds) ∧
    ((countVmFds fds = 0 ∨ 1 < countVmFds fds ∨ countVcpuFds fds = 0) →
      ∃ e, get_hypervisor fds = .error e) := by
  cases hf : find_vm_fd fds with
  | error e =>
    constructor
    · intro hv h
      simp only [get_hypervisor, hf] at h
      exact Except.noConfusion h
    · intro _
      exact ⟨e, by simp only [get_hypervisor, hf]⟩
  | ok pr =>
    obtain ⟨vms, vcpus⟩ := pr
    obtain ⟨hcl, _⟩ := (find_vm_fd_ok_iff fds vms vcpus).mp hf
    obtain ⟨hvlen, hclen⟩ := classifyFds_counts fds vms vcpus hcl
    constructor
    · intro hv h
      simp only [get_hypervisor, hf] at h
      cases vms with
      | nil => exact Except.noConfusion h
      | cons v0 vtl =>
        cases vtl with
        | nil =>
          cases vcpus with
          | nil => exact Except.noConfusion h
          | cons c ctl =>
            simp only [List.length_cons, List.length_nil] at hvlen hclen
            omega
        | cons v1 vtl2 => exact Except.noConfusion h
    · intro hcase
      cases vms with
      | nil => exact ⟨.noVm, by simp only [get_hypervisor, hf]⟩
      | cons v0 vtl =>
        cases vtl with
        | nil =>
          cases vcpus with
          | nil => exact ⟨.noVcpus, by simp only [get_hypervisor, hf]; rfl⟩
          | cons c ctl =>
            simp only [List.length_cons, List.length_nil] at hvlen hclen
            omega
        | cons v1 vtl2 => exact ⟨.multipleVms, by simp only [get_hypervisor, hf]⟩

/-- C5 witness: a table with one VM fd and one VCPU fd yields a handle
(so the counts are as required), and an empty table errors. -/
theorem get_hypervisor_one_vm_witness :
    (countVmFds [⟨"anon_inode:kvm-vm", 3⟩, ⟨"anon_inode:kvm-vcpu:0", 10⟩] = 1 ∧
      1 ≤ countVcpuFds [⟨"anon_inode:kvm-vm", 3⟩, ⟨"anon_inode:kvm-vcpu:0", 10⟩]) ∧
    (∃ e, get_hypervisor [] = .error e) :=
  ⟨(get_hypervisor_one_vm [⟨"anon_inode:kvm-vm", 3⟩, ⟨"anon_inode:kvm-vcpu:0", 10⟩]).1
      ⟨3, [⟨0, 10⟩]⟩ rfl,
   (get_hypervisor_one_vm []).2 (Or.inl rfl)⟩

/-- C6 counterexample: the VCPU list is returned in fd-enumeration
order, not sorted by parsed index, and a non-adjacent duplicate index is
accepted rather than rejected. -/
theorem find_vm_fd_order_counterexample :
    find_vm_fd [⟨"anon_inode:kvm-vcpu:1", 10⟩, ⟨"anon_inode:kvm-vcpu:0", 11⟩] =
      .ok ([], [⟨1, 10⟩, ⟨0, 11⟩]) ∧
    ¬ List.Sorted (· ≤ ·) (List.map VCPU.idx [⟨1, 10⟩, ⟨0, 11⟩]) ∧
    find_vm_fd [⟨"anon_inode:kvm-vcpu:0", 10⟩, ⟨"anon_inode:kvm-vcpu:1", 11⟩,
        ⟨"anon_inode:kvm-vcpu:0", 12⟩] =
      .ok ([], [⟨0, 10⟩, ⟨1, 11⟩, ⟨0, 12⟩]) ∧
    ¬ (List.map VCPU.idx [⟨0, 10⟩, ⟨1, 11⟩, ⟨0, 12⟩]).Nodup :=
  ⟨rfl, by decide, rfl, by decide⟩

/-- C6 (amended): `find_vm_fd` returns the VCPU entries exactly as
classified from the fd-enumeration order (no sorting), and it fails with
the multiple-VM error precisely when two *adjacent* entries of that
order carry the same parsed index. -/
theorem find_vm_fd_enum_order (fds : List FdInfo) :
    (∀ vms vcpus, find_vm_fd fds = .ok (vms, vcpus) →
      classifyFds fds = .ok (vms, vcpus) ∧
      List.Chain' (fun a b => a.idx ≠ b.idx) vcpus) ∧
    (∀ vms vcpus, classifyFds fds = .ok (vms, vcpus) →
      ¬ List.Chain' (fun a b => a.idx ≠ b.idx) vcpus →
      find_vm_fd fds = .error .dupVcpu) :=
  ⟨fun vms vcpus h => (find_vm_fd_ok_iff fds vms vcpus).mp h,
   fun vms vcpus hc hch => find_vm_fd_dup_error fds vms vcpus hc hch⟩

/-- C6 witness: on a concrete table whose VCPU names appear out of index
order, the returned list is the classification order with pairwise
distinct adjacent indices. -/
theorem find_vm_fd_enum_order_witness :
    classifyFds [⟨"anon_inode:kvm-vm", 3⟩, ⟨"anon_inode:kvm-vcpu:2", 10⟩,
        ⟨"anon_inode:kvm-vcpu:0", 11⟩] =
      .ok ([3], [⟨2, 10⟩, ⟨0, 11⟩]) ∧
    List.Chain' (fun a b => a.idx ≠ b.idx) [(⟨2, 10⟩ : VCPU), ⟨0, 11⟩] :=
  (find_vm_fd_enum_order [⟨"anon_inode:kvm-vm", 3⟩, ⟨"anon_inode:kvm-vcpu:2", 10⟩,
      ⟨"anon_inode:kvm-vcpu:0", 11⟩]).1 [3] [⟨2, 10⟩, ⟨0, 11⟩] rfl

end Vmsh
